import Mathlib

/-!
Shallow embedding of the pygdf in-memory columnar data model
(`pygdf/dataframe.py`): the fixed-capacity `Buffer`, the bit-packed null
mask convention, the typed `Series` column, and the `DataFrame` table.

Modelling conventions:
* element values are `Val` — an exact rational (`num`) or the floating NaN
  sentinel (`nan`); integer dtypes hold `num` values with denominator 1;
* device memory is a `List Val`; machine-level copies become `take`/`drop`
  surgery on that list;
* Python exceptions become `Except PyErr`; raising before any write is
  modelled by returning `.error` (the caller keeps the unchanged value);
* functions from this repository that are not part of `dataframe.py`
  (`cudautils`, `utils`, `_gdf` kernels) are modelled from the spec and are
  marked as such in their doc comments.
-/

/-- The numpy dtypes exercised by the data model.  `kind == 'f'` corresponds
to `isFloat`. -/
inductive DType
  | int8 | int32 | int64 | uint8 | float32 | float64
  deriving DecidableEq, Repr

/-- Whether `dtype.kind == 'f'` in numpy terms. -/
def DType.isFloat : DType → Bool
  | .float32 | .float64 => true
  | _ => false

/-- An element value: an exact rational number or the floating NaN
sentinel. -/
inductive Val
  | num (q : ℚ)
  | nan
  deriving DecidableEq, Repr

/-- Casting a value to a dtype (the value-level content of
`cudautils.astype`, which is repository code outside `dataframe.py`;
modelled from the spec item `cast(data, target_dtype)`).  Casting to a
floating dtype preserves the exact value; casting to an integer dtype
truncates toward zero as numpy does. -/
def castVal (d : DType) (v : Val) : Val :=
  match v with
  | .nan => if d.isFloat then .nan else .num 0
  | .num q => if d.isFloat then .num q else .num ((q.num.tdiv (q.den : Int) : Int) : ℚ)

/-- A value already representable in dtype `d`, so that `castVal d` is the
identity on it: any value for a floating dtype, an integral rational for an
integer dtype. -/
def Val.hasDtypeB (d : DType) (v : Val) : Bool :=
  match v with
  | .nan => d.isFloat
  | .num q => d.isFloat || (q.den == 1)

/-- Read a mask byte as a natural number (mask buffers hold byte values). -/
def Val.toByteNat : Val → Nat
  | .num q => q.num.toNat % 256
  | .nan => 0

/-- The Python exceptions raised by the data model. -/
inductive PyErr
  | memoryError
  | indexError
  | valueError
  | typeError
  | nameError
  | notImplementedError
  | attributeError
  | keyError
  deriving DecidableEq, Repr

/-- Python sequence indexing with an `int` index: a negative index wraps
once from the end, anything still out of `[0, len)` is an `IndexError`.
Used for the raw device-array accesses `mem[arg]`. -/
def pyGet (l : List Val) (i : Int) : Except PyErr Val :=
  let j := if i < 0 then (l.length : Int) + i else i
  if 0 ≤ j ∧ j < (l.length : Int) then .ok (l.getD j.toNat (Val.num 0))
  else .error .indexError

/-- Python sequence slicing `l[start:stop]` with step 1, `none` meaning an
omitted bound; bounds are clamped to the sequence length. -/
def pySlice (l : List Val) (start? stop? : Option Nat) : List Val :=
  (l.take (stop?.getD l.length)).drop (start?.getD 0)

/-- Modelled from the spec: `utils.calc_chunk_size(n, bitsize)` — the number
of chunks (bytes, for `bitsize = 8`) needed to hold `n` bits, i.e.
`ceil(n / bitsize)`. -/
def calc_chunk_size (n bitsize : Nat) : Nat :=
  (n + bitsize - 1) / bitsize

/-- Bit `idx` of a packed byte mask: `(mask[idx // 8] >> (idx % 8)) & 1`,
per the null-mask docstrings in `dataframe.py`. -/
def maskBit (maskBytes : List Val) (idx : Nat) : Bool :=
  Nat.testBit ((maskBytes.getD (idx / 8) (Val.num 0)).toByteNat) (idx % 8)

/-- Number of set bits in a byte, bits 0 through 7. -/
def bytePopcount (n : Nat) : Nat :=
  (List.range 8).countP (fun k => n.testBit k)

/-- Modelled from the spec: `cudautils.count_nonzero_mask` (the backend's
`count_set_bits`) — total set bits over the mask bytes. -/
def countNonzeroMask (maskBytes : List Val) : Nat :=
  (maskBytes.map (fun b => bytePopcount b.toByteNat)).sum

/-- Modelled from the spec: the compaction kernel `cudautils.copy_to_dense`
(the backend's `compact_dense`) — keep exactly the data elements whose mask
bit is 1, in order. -/
def compactByMask (data maskBytes : List Val) : List Val :=
  ((List.range data.length).filter (fun i => maskBit maskBytes i)).map
    (fun i => data.getD i (Val.num 0))

/-- Modelled from the spec: the kernel `cudautils.fillna` (the backend's
`fill_null`) — each null position is replaced by `value`, valid positions
keep their data. -/
def fillnaKernel (data maskBytes : List Val) (value : Val) : List Val :=
  (List.range data.length).map
    (fun i => if maskBit maskBytes i then data.getD i (Val.num 0) else value)

/-- Modelled from the spec: `cudautils.compute_scale` (the backend's
`linear_rescale`) — rescale every value to `(v - lo) / (hi - lo)` in
float64. -/
def scaleKernel (arr : List Val) (lo hi : Val) : List Val :=
  arr.map (fun v =>
    match v, lo, hi with
    | .num q, .num l, .num h => .num ((q - l) / (h - l))
    | _, _, _ => .nan)

/-- Binary minimum on values; NaN operands propagate. -/
def valMin : Val → Val → Val
  | .num a, .num b => .num (min a b)
  | _, _ => .nan

/-- Binary maximum on values; NaN operands propagate. -/
def valMax : Val → Val → Val
  | .num a, .num b => .num (max a b)
  | _, _ => .nan

/-- Modelled from the spec: `cudautils.compute_min` — a min-reduction seeded
with `init`. -/
def computeMin (arr : List Val) (init : Val) : Val :=
  arr.foldl valMin init

/-- Modelled from the spec: `cudautils.compute_max` — a max-reduction seeded
with `init`. -/
def computeMax (arr : List Val) (init : Val) : Val :=
  arr.foldl valMax init

/-- Modelled from the spec: `utils.get_numeric_type_info(dtype).max`, the
numeric type's largest value, used to seed the min-reduction.  The float
entries stand in for the finite `finfo` extremes. -/
def typeInfoMax : DType → Val
  | .int8 => .num 127
  | .uint8 => .num 255
  | .int32 => .num (2 ^ 31 - 1)
  | .int64 => .num (2 ^ 63 - 1)
  | .float32 => .num (2 ^ 128)
  | .float64 => .num (2 ^ 1024)

/-- Modelled from the spec: `utils.get_numeric_type_info(dtype).min`, the
numeric type's smallest value, used to seed the max-reduction. -/
def typeInfoMin : DType → Val
  | .int8 => .num (-128)
  | .uint8 => .num 0
  | .int32 => .num (-(2 ^ 31))
  | .int64 => .num (-(2 ^ 63))
  | .float32 => .num (-(2 ^ 128))
  | .float64 => .num (-(2 ^ 1024))

/-- `Buffer`: a 1D fixed-capacity device buffer.  `mem` is the backing
storage (length = `capacity`), `[0, size)` is the defined dense region. -/
structure Buffer where
  dtype : DType
  mem : List Val
  size : Nat
  capacity : Nat
  deriving DecidableEq, Repr

/-- `Buffer(mem)` with `size`/`capacity` defaulted: both equal the array
length. -/
def Buffer.fromArray (d : DType) (a : List Val) : Buffer :=
  ⟨d, a, a.length, a.length⟩

/-- `Buffer.from_empty(mem)`: `size = 0`, `capacity = mem.size`. -/
def Buffer.from_empty (d : DType) (mem : List Val) : Buffer :=
  ⟨d, mem, 0, mem.length⟩

/-- Structural well-formedness of a buffer: the backing storage has exactly
`capacity` elements and the dense region fits in it. -/
def Buffer.wfB (b : Buffer) : Bool :=
  (b.mem.length == b.capacity) && (decide (b.size ≤ b.capacity))

/-- `avail_space`: remaining capacity. -/
def Buffer.avail_space (b : Buffer) : Nat :=
  b.capacity - b.size

/-- `_sentry_capacity`: raise `MemoryError` when the needed element count
exceeds the available space. -/
def Buffer._sentry_capacity (b : Buffer) (size_needed : Nat) : Except PyErr Unit :=
  if size_needed > b.avail_space then .error .memoryError else .ok ()

/-- `to_gpu_array` / `to_array`: the dense view `mem[:size]`. -/
def Buffer.toGpuArray (b : Buffer) : List Val :=
  b.mem.take b.size

/-- `Buffer.__getitem__` with an `int` index: normalize a negative index by
adding `size`, raise `IndexError` when the result is `>= size`, then read
the backing storage.  Note the source places no lower bound on the
normalized index, so a still-negative index reaches `mem[arg]` and wraps
again under Python indexing. -/
def Buffer.getInt (b : Buffer) (i : Int) : Except PyErr Val :=
  let arg := if i < 0 then (b.size : Int) + i else i
  if (b.size : Int) ≤ arg then .error .indexError
  else pyGet b.mem arg

/-- `Buffer.__getitem__` with a slice: `Buffer(self.to_gpu_array()[arg])` —
a fresh buffer over the sliced dense view. -/
def Buffer.sliceRange (b : Buffer) (start? stop? : Option Nat) : Buffer :=
  Buffer.fromArray b.dtype (pySlice b.toGpuArray start? stop?)

/-- `Buffer.extend(array)`: check capacity first, cast the input to the
buffer dtype, copy it into `mem` starting at the current `size`, and
advance `size`.  A raise happens before any write, so on `.error` the
caller's buffer is unchanged. -/
def Buffer.extend (b : Buffer) (array : List Val) : Except PyErr Buffer := do
  let needed := array.length
  let _ ← b._sentry_capacity needed
  let arr := array.map (castVal b.dtype)
  pure { b with
          mem := b.mem.take b.size ++ arr ++ b.mem.drop (b.size + needed),
          size := b.size + needed }

/-- `Buffer.astype(dtype)`: identity when the dtype is unchanged, otherwise
a fresh buffer over the cast of the whole backing storage
(`Buffer(cudautils.astype(self.mem, dtype))`). -/
def Buffer.astype (b : Buffer) (d : DType) : Buffer :=
  if b.dtype = d then b else Buffer.fromArray d (b.mem.map (castVal d))

/-- Modelled from the spec: `cudautils.mask_get(mask, idx)` reads mask bit
`idx` as `(mask[idx // 8] >> (idx % 8)) & 1` (the formula stated in the
null-mask docstrings), indexing the mask `Buffer` with Python floor
division. -/
def maskGet (m : Buffer) (idx : Int) : Except PyErr Bool := do
  let byte ← m.getInt (Int.fdiv idx 8)
  pure (Nat.testBit byte.toByteNat (Int.fmod idx 8).toNat)

/-- `Series`: data and null mask.  Mirrors the constructor-relevant fields
of `pygdf.dataframe.Series`; the dtype-dispatch strategy object (`impl`)
and the cffi view are external collaborators and carry no data, so they are
not modelled. -/
structure Series where
  size : Nat
  dtype : DType
  data : Buffer
  mask : Option Buffer
  null_count : Int
  deriving DecidableEq, Repr

/-- `Series.__init__(size, dtype, buffer, mask, null_count)`: when
`null_count` is omitted it is computed as `size` minus the number of set
bits of the mask storage (`cudautils.count_nonzero_mask(mask.mem)`), or 0
when there is no mask. -/
def Series.init (size : Nat) (dtype : DType) (buffer : Buffer)
    (mask : Option Buffer) (null_count : Option Int) : Series :=
  let nc : Int :=
    match null_count with
    | some n => n
    | none =>
      match mask with
      | some m => (size : Int) - (countNonzeroMask m.mem : Int)
      | none => 0
  ⟨size, dtype, buffer, mask, nc⟩

/-- `Series.from_buffer`: wrap a buffer, taking `size` and `dtype` from it;
no mask. -/
def Series.from_buffer (b : Buffer) : Series :=
  Series.init b.size b.dtype b none none

/-- `Series.from_array`: `from_buffer(Buffer(array))`. -/
def Series.from_array (d : DType) (a : List Val) : Series :=
  Series.from_buffer (Buffer.fromArray d a)

/-- `has_null_mask`: whether a mask buffer is attached. -/
def Series.has_null_mask (s : Series) : Bool :=
  s.mask.isSome

/-- Structural well-formedness of a series: the data buffer is well formed
and as long as the series; a positive `null_count` implies a mask is
attached; an attached mask is well formed with `ceil(size / 8)` dense
bytes. -/
def Series.wfB (s : Series) : Bool :=
  s.data.wfB && (s.size == s.data.size) &&
  ((s.null_count == 0) || s.mask.isSome) &&
  (match s.mask with
   | none => true
   | some m => m.wfB && (m.size == calc_chunk_size s.size 8))

/-- `Series.set_mask(mask, null_count)`: reject a mask whose element type
is not a single byte (`uint8`/`int8`) — the source raises `ValueError`
here — and otherwise copy-construct with the new mask and the given (or
recomputed) null count. -/
def Series.set_mask (s : Series) (mask : Buffer) (null_count : Option Int) :
    Except PyErr Series :=
  if mask.dtype ≠ .uint8 ∧ mask.dtype ≠ .int8 then .error .valueError
  else .ok (Series.init s.size s.dtype s.data (some mask) null_count)

/-- `Series.__getitem__` with an `int` index: read the data buffer
(bounds-checked there), then the mask bit via `cudautils.mask_get` when a
mask is attached; a null position reads as Python `None` (`Option.none`
here). -/
def Series.getInt (s : Series) (i : Int) : Except PyErr (Option Val) := do
  let val ← s.data.getInt i
  match s.mask with
  | some m => do
    let valid ← maskGet m i
    pure (if valid then some val else none)
  | none => pure (some val)

/-- `Series.__getitem__` with a step-1 slice.  With nulls present the local
`start`/`stop` are recomputed by Python truthiness (`0` and `None` both
fall back to the default), the mask range is the byte-granularity
`calc_chunk_size(start, 8) .. calc_chunk_size(stop, 8)`, the data slice
uses the original slice object on the raw storage, and the result is
copy-constructed with `null_count` recomputed.  Without nulls only the
data buffer is sliced.  (`self._mask.mem` on an absent mask would be an
`AttributeError`.) -/
def Series.sliceGet (s : Series) (start? stop? : Option Nat) : Except PyErr Series :=
  if 0 < s.null_count then
    match s.mask with
    | none => .error .attributeError
    | some m =>
      let start := start?.getD 0
      let stop := match stop? with
                  | none => s.size
                  | some v => if v = 0 then s.size else v
      let mlo := calc_chunk_size start 8
      let mhi := calc_chunk_size stop 8
      let subdata := pySlice s.data.mem start? stop?
      let submask := pySlice m.mem (some mlo) (some mhi)
      .ok (Series.init subdata.length s.dtype (Buffer.fromArray s.data.dtype subdata)
            (some (Buffer.fromArray m.dtype submask)) none)
  else
    let newbuffer := s.data.sliceRange start? stop?
    .ok (Series.init newbuffer.size s.dtype newbuffer none none)

/-- `Series.__bool__`: always raises `TypeError`. -/
def Series.toBool (_ : Series) : Except PyErr Bool :=
  .error .typeError

/-- `Series.fillna(value)`: identity when no mask is attached; otherwise
wrap the fill kernel's output (over the dense data and mask views) as a
fresh mask-free series. -/
def Series.fillna (s : Series) (value : Val) : Series :=
  match s.mask with
  | none => s
  | some m =>
    Series.from_array s.data.dtype
      (fillnaKernel s.data.toGpuArray m.toGpuArray value)

/-- `Series.astype(dtype)`: identity when the dtype is unchanged; otherwise
`Series.from_buffer(self.data.astype(dtype))` — note this drops any
attached null mask. -/
def Series.astype (s : Series) (d : DType) : Series :=
  if d = s.dtype then s else Series.from_buffer (s.data.astype d)

/-- `Series._copy_to_dense_buffer`: run the compaction kernel over the
dense data and mask views and wrap the survivors as
`Buffer(mem, size=nnz, capacity=mem.size)`. -/
def Series._copy_to_dense_buffer (s : Series) : Except PyErr Buffer :=
  match s.mask with
  | some m =>
    let data := s.data.toGpuArray
    let survivors := compactByMask data m.toGpuArray
    let mem := survivors ++ List.replicate (data.length - survivors.length) (Val.num 0)
    .ok ⟨s.data.dtype, mem, survivors.length, mem.length⟩
  | none => .error .attributeError

/-- The result of `to_dense_buffer`: a bare `Buffer`, or — on the
`fillna='pandas'` path — the `Series` returned by `col.fillna(nan)`. -/
inductive BufOrSeries
  | buf (b : Buffer)
  | ser (c : Series)
  deriving DecidableEq, Repr

/-- `Series.to_dense_buffer(fillna)`: reject a `fillna` other than `None` or
`'pandas'`; with a mask attached, the `'pandas'` mode casts a non-floating
column to float64 first and returns `col.fillna(nan)` (a `Series`), the
`None` mode compacts; without a mask the data buffer is returned as is. -/
def Series.to_dense_buffer (s : Series) (fillna? : Option String) :
    Except PyErr BufOrSeries := do
  if fillna? ≠ none ∧ fillna? ≠ some "pandas" then Except.error .valueError
  else if s.has_null_mask then
    if fillna? = some "pandas" then
      let col := if s.dtype.isFloat then s else s.astype .float64
      pure (.ser (col.fillna .nan))
    else do
      let b ← s._copy_to_dense_buffer
      pure (.buf b)
  else pure (.buf s.data)

/-- `Series.to_gpu_array(fillna)` / `to_array(fillna)`:
`to_dense_buffer(fillna).to_gpu_array()`.  When `to_dense_buffer` hands
back a `Series` (the `'pandas'` path), that object re-enters with the
default `fillna=None`, which always produces a `Buffer`. -/
def Series.to_gpu_array (s : Series) (fillna? : Option String) :
    Except PyErr (List Val) := do
  let r ← s.to_dense_buffer fillna?
  match r with
  | .buf b => pure b.toGpuArray
  | .ser c => do
    let r2 ← c.to_dense_buffer none
    match r2 with
    | .buf b => pure b.toGpuArray
    | .ser _ => Except.error .valueError

/-- The dense (non-null) values of a series: the compaction of the data by
the mask when one is attached, the plain dense view otherwise.  Proved
equal to what `to_gpu_array(None)` returns. -/
def Series.denseVals (s : Series) : List Val :=
  match s.mask with
  | some m => compactByMask s.data.toGpuArray m.toGpuArray
  | none => s.data.toGpuArray

/-- `Series.min`: a min-reduction over the dense view, seeded with the
dtype's largest value. -/
def Series.min (s : Series) : Except PyErr Val := do
  let arr ← s.to_gpu_array none
  pure (computeMin arr (typeInfoMax s.dtype))

/-- `Series.max`: a max-reduction over the dense view, seeded with the
dtype's smallest value. -/
def Series.max (s : Series) : Except PyErr Val := do
  let arr ← s.to_gpu_array none
  pure (computeMax arr (typeInfoMin s.dtype))

/-- `Series.scale`: raise `NotImplementedError` when `null_count != 0`;
otherwise rescale the dense view to `[0, 1]` in float64 using the series
min and max, and wrap the kernel output via `from_array`. -/
def Series.scale (s : Series) : Except PyErr Series := do
  if s.null_count ≠ 0 then Except.error .notImplementedError
  else do
    let vmin ← s.min
    let vmax ← s.max
    let gpuarr ← s.to_gpu_array none
    pure (Series.from_array .float64 (scaleKernel gpuarr vmin vmax))

/-- `Series.append(other)`: allocate fresh storage of length
`len(self) + len(other)` with the data buffer's dtype, extend it with the
two dense data views in order, and wrap the result as a new mask-free
series. -/
def Series.append (s other : Series) : Except PyErr Series := do
  let newsize := s.size + other.size
  let mem := List.replicate newsize (Val.num 0)
  let newbuf := Buffer.from_empty s.data.dtype mem
  let b1 ← newbuf.extend s.data.toGpuArray
  let b2 ← b1.extend other.data.toGpuArray
  pure (Series.from_buffer b2)

/-- `DataFrame`: an ordered name-to-column mapping plus the cached row
count `_size`. -/
structure DataFrame where
  cols : List (String × Series)
  size : Nat
  deriving DecidableEq, Repr

/-- The overwrite performed by `__setitem__` on an existing name: every
entry carrying that name is replaced by the new column, all other entries
are untouched. -/
def replaceCol (l : List (String × Series)) (name : String) (col : Series) :
    List (String × Series) :=
  l.map (fun kv => if kv.1 = name then (name, col) else kv)

/-- `DataFrame._sentry_column_size` folded into `add_column`: duplicate
names raise `NameError`; when columns already exist a length differing
from `_size` raises `ValueError`; `_size` is then set from the new
column.  (`Series.from_any` on a value that is already a `Series` is the
identity, which is the only case the claims exercise.) -/
def DataFrame.add_column (df : DataFrame) (name : String) (data : Series) :
    Except PyErr DataFrame :=
  if (df.cols.lookup name).isSome then .error .nameError
  else if df.cols ≠ [] ∧ df.size ≠ data.size then .error .valueError
  else .ok ⟨df.cols ++ [(name, data)], data.size⟩

/-- `DataFrame.__setitem__`: overwrite in place when the name exists —
without the size sentry and without touching `_size` — otherwise defer to
`add_column`. -/
def DataFrame.setItem (df : DataFrame) (name : String) (col : Series) :
    Except PyErr DataFrame :=
  if (df.cols.lookup name).isSome then
    .ok ⟨replaceCol df.cols name col, df.size⟩
  else
    df.add_column name col

/-- The comparison `dtype != c.dtype` inside `as_gpu_matrix`, where the
binding `dtype = cols[0]` holds the first `Series` itself: `Series.__ne__`
returns `NotImplemented` for a non-`Series` operand, and the reflected
numpy-dtype comparison coerces the `Series` through its `.dtype` attribute
(numpy's dtype-attribute conversion), so the first column's actual dtype is
compared with `c.dtype`. -/
def seriesNeDtype (s : Series) (d : DType) : Bool :=
  s.dtype != d

/-- The selection `cols = [self._cols[k] for k in columns]` with the
`columns=None` default meaning all columns; a missing name is a
`KeyError`. -/
def DataFrame.selectCols (df : DataFrame) (columns? : Option (List String)) :
    Except PyErr (List Series) :=
  (match columns? with
   | none => df.cols.map Prod.fst
   | some cs => cs).mapM (fun k =>
    match df.cols.lookup k with
    | some c => Except.ok c
    | none => Except.error PyErr.keyError)

/-- `DataFrame.as_gpu_matrix(columns)`: select the columns, require at
least one column and one row, run the dtype-uniformity check against the
first column (see `seriesNeDtype`), reject a frame in which any column
carries a null mask, then allocate the `(nrow, ncol)` F-order matrix (its
dtype again coerced through the `Series`' `.dtype` attribute) and copy
each column's dense view `to_gpu_array(fillna='pandas')` into the matrix
column `matrix[:, colidx]`.  The matrix is modelled column-major as the
list of its `ncol` columns; the device allocation and `copy_to_device`
mechanics are external device-array concerns, the copy placing exactly
the dense view into the column.  This is the body of `as_gpu_matrix`
after column selection. -/
def DataFrame.asMatrixChecked (df : DataFrame) (cols : List Series) :
    Except PyErr (List (List Val)) :=
  match cols with
  | [] => Except.error .valueError
  | c0 :: rest =>
    if df.size < 1 then Except.error .valueError
    else if (c0 :: rest).any (fun c => seriesNeDtype c0 c.dtype) then
      Except.error .valueError
    else if df.cols.any (fun kc => kc.2.has_null_mask) then
      Except.error .valueError
    else
      (c0 :: rest).mapM (fun c => c.to_gpu_array (some "pandas"))

/-- `DataFrame.as_gpu_matrix(columns)`: the column selection followed by
the checks and the matrix fill of `asMatrixChecked`. -/
def DataFrame.as_gpu_matrix (df : DataFrame) (columns? : Option (List String)) :
    Except PyErr (List (List Val)) := do
  let cols ← df.selectCols columns?
  df.asMatrixChecked cols

/-- `DataFrame.as_matrix(columns)`:
`as_gpu_matrix(columns).copy_to_host()` — the host copy is the identity on
the values. -/
def DataFrame.as_matrix (df : DataFrame) (columns? : Option (List String)) :
    Except PyErr (List (List Val)) :=
  df.as_gpu_matrix columns?

/-- C1's failing input: an int64 column of length 2 whose second row is
null (mask byte `0b01`), with garbage value 99 stored at the null
position. -/
def sC1 : Series :=
  ⟨2, .int64, Buffer.fromArray .int64 [Val.num 1, Val.num 99],
    some (Buffer.fromArray .uint8 [Val.num 1]), 1⟩

/-- What the code actually produces for C1's failing input: the cast of the
raw storage with the garbage value intact and no NaN. -/
def sC1result : Series :=
  ⟨2, .float64, Buffer.fromArray .float64 [Val.num 1, Val.num 99], none, 0⟩

/-- C2's witness frame: one dense int64 column of length 2 — it satisfies
every requirement of the claim. -/
def dfC2 : DataFrame :=
  ⟨[("a", Series.from_array .int64 [Val.num 1, Val.num 2])], 2⟩


/-- C6's counterexample input: a masked column whose mask marks every row
valid, so `null_count = 0` while a null mask is attached. -/
def sC6cex : Series :=
  ⟨3, .int64, Buffer.fromArray .int64 [Val.num 0, Val.num 5, Val.num 10],
    some (Buffer.fromArray .uint8 [Val.num 7]), 0⟩

/-- A masked series with one null, used to witness the error branch of the
amended C6. -/
def sC6w1 : Series :=
  ⟨2, .int64, Buffer.fromArray .int64 [Val.num 3, Val.num 9],
    some (Buffer.fromArray .uint8 [Val.num 1]), 1⟩

/-- A dense (mask-free) series, used to witness the success branch of the
amended C6. -/
def sC6w2 : Series :=
  Series.from_array .int64 [Val.num 0, Val.num 5, Val.num 10]

/-- A plain dense series used as the receiver in the C7 statements. -/
def sC7w : Series :=
  Series.from_array .int64 [Val.num 4, Val.num 5]

/-- A mask buffer with a non-byte element type (float64). -/
def mC7bad : Buffer :=
  Buffer.fromArray .float64 [Val.num 3]

/-- A well-typed uint8 mask buffer. -/
def mC7good : Buffer :=
  Buffer.fromArray .uint8 [Val.num 3]

/-- C8's counterexample input: a full buffer of three int64 values. -/
def bufC8cex : Buffer :=
  Buffer.fromArray .int64 [Val.num 10, Val.num 20, Val.num 30]

/-- Witness buffer for the amended C8. -/
def bufC8w : Buffer :=
  Buffer.fromArray .int64 [Val.num 10, Val.num 20, Val.num 30]

/-- Witness buffer for C3: empty, dtype int64, capacity 4. -/
def bufC3w : Buffer :=
  Buffer.from_empty .int64 [Val.num 0, Val.num 0, Val.num 0, Val.num 0]

/-- Witness series for C4: a masked int64 column (the mask must be dropped
by `append`). -/
def sC4a : Series :=
  ⟨2, .int64, Buffer.fromArray .int64 [Val.num 1, Val.num 2],
    some (Buffer.fromArray .uint8 [Val.num 1]), 1⟩

/-- Witness series for C4: a dense int64 column. -/
def sC4b : Series :=
  Series.from_array .int64 [Val.num 7]

/-- A frame whose single column carries a null mask, violating C2's
mask-free requirement. -/
def dfC2mask : DataFrame :=
  ⟨[("a", sC4a)], 2⟩

/-- Witness series for C5: nine int64 rows, row 0 null (mask bytes
`0b11111110, 0b00000001`). -/
def sC5w : Series :=
  ⟨9, .int64,
    Buffer.fromArray .int64
      [Val.num 0, Val.num 1, Val.num 2, Val.num 3, Val.num 4,
       Val.num 5, Val.num 6, Val.num 7, Val.num 8],
    some (Buffer.fromArray .uint8 [Val.num 254, Val.num 1]), 1⟩

/-- Witness frame for C9: two columns of length 2. -/
def dfC9 : DataFrame :=
  ⟨[("a", Series.from_array .int64 [Val.num 1, Val.num 2]),
    ("b", Series.from_array .int64 [Val.num 3, Val.num 4])], 2⟩

/-- A replacement column of a different length (3) for the C9 witness. -/
def serC9new : Series :=
  Series.from_array .int64 [Val.num 5, Val.num 6, Val.num 7]

/-! ### Helper lemmas -/

/-- Casting is the identity on values already representable in the target
dtype. -/
theorem castVal_of_hasDtypeB {d : DType} {v : Val} (h : Val.hasDtypeB d v = true) :
    castVal d v = v := by
  cases v with
  | nan =>
    simp [Val.hasDtypeB] at h
    simp [castVal, h]
  | num q =>
    by_cases hf : d.isFloat
    · simp [castVal, hf]
    · simp [Val.hasDtypeB, hf] at h
      simp only [castVal, hf, if_false, Bool.false_eq_true]
      have hnum : (q.num : ℚ) = q := (Rat.den_eq_one_iff q).mp h
      rw [h]
      simp [Int.tdiv_one, hnum]

/-- Casting a list of dtype-compatible values is the identity. -/
theorem map_castVal_of_hasDtypeB {d : DType} {a : List Val}
    (h : ∀ v ∈ a, Val.hasDtypeB d v = true) :
    a.map (castVal d) = a := by
  induction a with
  | nil => rfl
  | cons x xs ih =>
    simp only [List.map_cons]
    rw [castVal_of_hasDtypeB (h x (by simp)), ih (fun v hv => h v (by simp [hv]))]

/-- `extend` fails with `MemoryError` when the input exceeds the available
space (the sentry runs before any write, so the caller's buffer is
untouched). -/
theorem Buffer.extend_err (b : Buffer) (a : List Val)
    (h : b.capacity - b.size < a.length) :
    b.extend a = .error .memoryError := by
  simp [Buffer.extend, Buffer._sentry_capacity, Buffer.avail_space, h, Except.bind]

/-- `extend` within capacity: the explicit resulting buffer. -/
theorem Buffer.extend_ok (b : Buffer) (a : List Val)
    (h : a.length ≤ b.capacity - b.size) :
    b.extend a = .ok { b with
      mem := b.mem.take b.size ++ a.map (castVal b.dtype) ++ b.mem.drop (b.size + a.length),
      size := b.size + a.length } := by
  have h' : ¬ (b.avail_space < a.length) := by
    simp [Buffer.avail_space]; omega
  simp [Buffer.extend, Buffer._sentry_capacity, h', Except.bind]

/-- The dense view after a successful `extend` is the old dense view
followed by the cast input. -/
theorem Buffer.toGpuArray_extend (b : Buffer) (a : List Val)
    (hwf : b.wfB = true) :
    (b.mem.take b.size ++ a.map (castVal b.dtype) ++ b.mem.drop (b.size + a.length)).take
        (b.size + a.length) =
      b.toGpuArray ++ a.map (castVal b.dtype) := by
  simp only [Buffer.wfB, Bool.and_eq_true, beq_iff_eq, decide_eq_true_eq] at hwf
  obtain ⟨hlen, hle⟩ := hwf
  have h1 : (b.mem.take b.size).length = b.size := by
    simp [List.length_take]; omega
  rw [List.append_assoc, List.take_append_eq_append_take, h1]
  have h2 : b.size + a.length - b.size = a.length := by omega
  rw [List.take_of_length_le (by omega), h2, List.take_append_eq_append_take]
  simp [List.length_map, Buffer.toGpuArray]

/-- A successful `extend` preserves well-formedness, capacity and dtype. -/
theorem Buffer.extend_wfB (b : Buffer) (a : List Val)
    (hwf : b.wfB = true) (h : a.length ≤ b.capacity - b.size) :
    ({ b with
        mem := b.mem.take b.size ++ a.map (castVal b.dtype) ++ b.mem.drop (b.size + a.length),
        size := b.size + a.length } : Buffer).wfB = true := by
  simp only [Buffer.wfB, Bool.and_eq_true, beq_iff_eq, decide_eq_true_eq] at hwf ⊢
  obtain ⟨hlen, hle⟩ := hwf
  constructor
  · simp [List.length_take, List.length_drop]
    omega
  · omega

/-- `pyGet` at an in-range natural index. -/
theorem pyGet_nat (l : List Val) (n : Nat) (h : n < l.length) :
    pyGet l (n : Int) = .ok (l.getD n (Val.num 0)) := by
  have h0 : ¬ ((n : Int) < 0) := by omega
  have h1 : 0 ≤ (n : Int) ∧ (n : Int) < (l.length : Int) := by omega
  simp [pyGet, h0, h1, Int.toNat_natCast]

/-- `Buffer.__getitem__` at an in-range natural index reads the backing
storage. -/
theorem Buffer.getInt_nat (b : Buffer) (n : Nat)
    (hn : n < b.size) (hlen : b.size ≤ b.mem.length) :
    b.getInt (n : Int) = .ok (b.mem.getD n (Val.num 0)) := by
  have h0 : ¬ ((n : Int) < 0) := by omega
  have h1 : ¬ ((b.size : Int) ≤ (n : Int)) := by omega
  simp only [Buffer.getInt, h0, if_false]
  rw [if_neg h1]
  exact pyGet_nat b.mem n (by omega)

/-- `mask_get` at a natural row index reads bit `n % 8` of mask byte
`n / 8`. -/
theorem maskGet_nat (m : Buffer) (n : Nat)
    (h : n / 8 < m.size) (hlen : m.size ≤ m.mem.length) :
    maskGet m (n : Int) =
      .ok (Nat.testBit ((m.mem.getD (n / 8) (Val.num 0)).toByteNat) (n % 8)) := by
  have hdiv : Int.fdiv (n : Int) (8 : Int) = ((n / 8 : Nat) : Int) :=
    (Int.ofNat_fdiv n 8).symm
  have hmod : Int.fmod (n : Int) (8 : Int) = ((n % 8 : Nat) : Int) :=
    (Int.ofNat_fmod n 8).symm
  simp only [maskGet, hdiv, hmod]
  rw [m.getInt_nat (n / 8) h hlen]
  have hto : ((n % 8 : Nat) : Int).toNat = n % 8 := by omega
  simp only [hto]
  rfl

/-- `Series.__getitem__` with an in-range natural index on a masked series:
the data value guarded by the mask bit. -/
theorem Series.getInt_nat_masked (t : Series) (mm : Buffer) (n : Nat)
    (hm : t.mask = some mm)
    (hdata : n < t.data.size) (hdlen : t.data.size ≤ t.data.mem.length)
    (hmask : n / 8 < mm.size) (hmlen : mm.size ≤ mm.mem.length) :
    t.getInt (n : Int) =
      .ok (if Nat.testBit ((mm.mem.getD (n / 8) (Val.num 0)).toByteNat) (n % 8)
           then some (t.data.mem.getD n (Val.num 0)) else none) := by
  simp only [Series.getInt, hm]
  rw [t.data.getInt_nat n hdata hdlen]
  rw [maskGet_nat mm n hmask hmlen]
  rfl

/-- An element of the clamped slice `(l.take b).drop a` sits at offset
`a + k` of the source. -/
theorem getD_pySlice (l : List Val) (a b k : Nat)
    (hk : a + k < b) :
    ((l.take b).drop a).getD k (Val.num 0) = l.getD (a + k) (Val.num 0) := by
  rw [List.getD_eq_getElem?_getD, List.getD_eq_getElem?_getD,
      List.getElem?_drop, List.getElem?_take]
  rw [if_pos hk]

/-- Length of the clamped slice. -/
theorem length_pySlice (l : List Val) (a b : Nat) (hb : b ≤ l.length) :
    ((l.take b).drop a).length = b - a := by
  simp [List.length_drop, List.length_take]
  omega


/-- Bind on a successful `Except` computation. -/
@[simp] theorem pyBind_ok {α β : Type} (a : α) (f : α → Except PyErr β) :
    (Except.ok a : Except PyErr α) >>= f = f a := rfl

/-- Bind on a failed `Except` computation. -/
@[simp] theorem pyBind_err {α β : Type} (e : PyErr) (f : α → Except PyErr β) :
    (Except.error e : Except PyErr α) >>= f = Except.error e := rfl

/-- `pure` in the `Except` monad. -/
@[simp] theorem pyPure_def {α : Type} (a : α) :
    (pure a : Except PyErr α) = Except.ok a := rfl

/-- `map` on a successful `Except` computation. -/
@[simp] theorem pyMap_ok {α β : Type} (f : α → β) (a : α) :
    (Except.ok a : Except PyErr α).map f = Except.ok (f a) := rfl

/-- `map` on a failed `Except` computation. -/
@[simp] theorem pyMap_err {α β : Type} (f : α → β) (e : PyErr) :
    (Except.error e : Except PyErr α).map f = Except.error e := rfl

/-- Unfolding `replaceCol` over a cons cell. -/
theorem replaceCol_cons (k : String) (v : Series) (t : List (String × Series))
    (name : String) (col : Series) :
    replaceCol ((k, v) :: t) name col =
      (if k = name then (name, col) else (k, v)) :: replaceCol t name col := rfl

/-- Overwriting an existing name makes lookup of that name yield the new
column. -/
theorem lookup_replaceCol_self (l : List (String × Series)) (name : String)
    (col : Series) (h : (l.lookup name).isSome = true) :
    (replaceCol l name col).lookup name = some col := by
  induction l with
  | nil => simp [List.lookup] at h
  | cons kv t ih =>
    obtain ⟨k, v⟩ := kv
    rw [replaceCol_cons]
    by_cases hk : k = name
    · rw [if_pos hk]
      simp [List.lookup]
    · rw [if_neg hk]
      have hne : (name == k) = false := by
        simp only [beq_eq_false_iff_ne, ne_eq]
        exact fun e => hk e.symm
      simp only [List.lookup, hne]
      apply ih
      simpa [List.lookup, hne] using h

/-- Overwriting one name leaves lookups of every other name unchanged. -/
theorem lookup_replaceCol_other (l : List (String × Series)) (name k : String)
    (col : Series) (hk : k ≠ name) :
    (replaceCol l name col).lookup k = l.lookup k := by
  induction l with
  | nil => rfl
  | cons kv t ih =>
    obtain ⟨k0, v⟩ := kv
    rw [replaceCol_cons]
    by_cases h0 : k0 = name
    · rw [if_pos h0]
      have hne1 : (k == name) = false := by simpa [beq_eq_false_iff_ne] using hk
      have hne0 : (k == k0) = false := by
        rw [h0]
        exact hne1
      simp only [List.lookup, hne1, hne0]
      exact ih
    · rw [if_neg h0]
      by_cases h1 : k = k0
      · have he : (k == k0) = true := by simpa [beq_iff_eq] using h1
        simp only [List.lookup, he]
      · have hne : (k == k0) = false := by simpa [beq_eq_false_iff_ne] using h1
        simp only [List.lookup, hne]
        exact ih

/-- `to_gpu_array(None)` always succeeds and returns the dense values: the
mask compaction when a mask is attached, the plain dense view otherwise. -/
theorem Series.to_gpu_array_none (s : Series) :
    s.to_gpu_array none = .ok s.denseVals := by
  cases hm : s.mask with
  | none =>
    simp [Series.to_gpu_array, Series.to_dense_buffer, Series.has_null_mask, hm,
          Series.denseVals]
  | some m =>
    have htake :
        ((compactByMask s.data.toGpuArray m.toGpuArray) ++
            List.replicate
              (s.data.toGpuArray.length -
                (compactByMask s.data.toGpuArray m.toGpuArray).length)
              (Val.num 0)).take (compactByMask s.data.toGpuArray m.toGpuArray).length =
          compactByMask s.data.toGpuArray m.toGpuArray :=
      List.take_left _ _
    simp only [Series.to_gpu_array, Series.to_dense_buffer, Series.has_null_mask, hm,
               Series._copy_to_dense_buffer, Series.denseVals, Option.isSome_some,
               if_true, if_false]
    simp [Buffer.toGpuArray, htake]

/-- `to_gpu_array(fillna='pandas')` on a mask-free series returns the data
buffer's dense view unchanged. -/
theorem Series.to_gpu_array_pandas_dense (s : Series) (hm : s.mask = none) :
    s.to_gpu_array (some "pandas") = .ok s.data.toGpuArray := by
  simp [Series.to_gpu_array, Series.to_dense_buffer, Series.has_null_mask, hm]

/-- `mapM` over a list on which the function succeeds pointwise collects
the successes. -/
theorem mapM_ok_of_forall {α β : Type} (l : List α) (f : α → Except PyErr β)
    (g : α → β) (h : ∀ x ∈ l, f x = .ok (g x)) :
    l.mapM f = .ok (l.map g) := by
  induction l with
  | nil => rfl
  | cons x xs ih =>
    rw [List.mapM_cons, h x (by simp), ih (fun y hy => h y (by simp [hy]))]
    rfl

/-! ### Claim theorems -/

/-- Claim C10: for every Series, regardless of its length, dtype, contents
or mask, converting it to a boolean (truth-testing it) always raises
`TypeError`. -/
theorem C10_bool_always_typeerror (s : Series) :
    s.toBool = .error .typeError := rfl

/-- Claim C1, evaluation at the failing input (code bug): on the int64
series `sC1` with one null at row 1 (stored garbage value 99),
`to_dense_buffer(fillna='pandas')` returns the float-cast column with the
garbage value 99 still at the null position instead of NaN, because
`astype` drops the null mask and the subsequent `fillna(nan)` becomes a
no-op.  This contradicts both the claim and the `to_array` docstring
("null values are filled with NaNs"). -/
theorem C1_pandas_fill_eval :
    Series.to_dense_buffer sC1 (some "pandas") = .ok (.ser sC1result) ∧
    sC1result.data.toGpuArray.getD 1 (Val.num 0) = Val.num 99 ∧
    Val.num 99 ≠ Val.nan :=
  ⟨rfl, rfl, by decide⟩

/-- Claim C7, counterexample: `set_mask` with a float64-typed mask fails
with `ValueError`, not the `TypeError` the claim states. -/
theorem C7_counterexample :
    sC7w.set_mask mC7bad none = .error PyErr.valueError ∧
    PyErr.valueError ≠ PyErr.typeError :=
  ⟨rfl, by decide⟩

/-- Claim C7 as amended: a mask whose element type is not a single-byte
type is rejected with `ValueError` (not `TypeError`); a byte-typed mask
yields a new column carrying the given mask in place of any prior one,
with the receiver's size, dtype and data unchanged (the original series
itself is untouched — the operation is copy-on-construct). -/
theorem C7_set_mask (s : Series) (mask : Buffer) (nc : Option Int) :
    (¬(mask.dtype = .uint8 ∨ mask.dtype = .int8) →
      s.set_mask mask nc = .error .valueError) ∧
    ((mask.dtype = .uint8 ∨ mask.dtype = .int8) →
      (s.set_mask mask nc).map (fun r => (r.mask, r.size, r.dtype, r.data)) =
        .ok (some mask, s.size, s.dtype, s.data)) := by
  constructor
  · intro h
    have h' : mask.dtype ≠ DType.uint8 ∧ mask.dtype ≠ DType.int8 := by tauto
    simp [Series.set_mask, h']
  · intro h
    have h' : ¬ (mask.dtype ≠ DType.uint8 ∧ mask.dtype ≠ DType.int8) := by tauto
    simp [Series.set_mask, h', Series.init]

/-- Witness for the amended C7, at concrete inputs: the float64 mask is
rejected with `ValueError`; the uint8 mask is installed on the new
column. -/
theorem C7_set_mask_witness :
    sC7w.set_mask mC7bad none = .error .valueError ∧
    (sC7w.set_mask mC7good none).map (fun r => (r.mask, r.size, r.dtype, r.data)) =
      .ok (some mC7good, sC7w.size, sC7w.dtype, sC7w.data) :=
  ⟨(C7_set_mask sC7w mC7bad none).1 (by decide),
   (C7_set_mask sC7w mC7good none).2 (by decide)⟩

/-- Claim C9: assigning to an existing column name replaces only that
column — every other column is unchanged — succeeds for a replacement of
any length without the `add_column` size sentry, and the frame's cached
row count is not re-validated (it keeps its old value). -/
theorem C9_setitem_overwrite (df : DataFrame) (name : String) (col : Series)
    (h : (df.cols.lookup name).isSome = true) :
    df.setItem name col = .ok ⟨replaceCol df.cols name col, df.size⟩ ∧
    (replaceCol df.cols name col).lookup name = some col ∧
    ∀ k, k ≠ name → (replaceCol df.cols name col).lookup k = df.cols.lookup k := by
  refine ⟨?_, lookup_replaceCol_self df.cols name col h, ?_⟩
  · simp [DataFrame.setItem, h]
  · intro k hk
    exact lookup_replaceCol_other df.cols name k col hk

/-- Witness for C9 at a concrete frame: replacing column `a` (length 2) by
a length-3 column succeeds, keeps `_size = 2`, and leaves column `b`
unchanged. -/
theorem C9_setitem_overwrite_witness :
    dfC9.setItem "a" serC9new = .ok ⟨replaceCol dfC9.cols "a" serC9new, dfC9.size⟩ ∧
    (replaceCol dfC9.cols "a" serC9new).lookup "b" = dfC9.cols.lookup "b" :=
  ⟨(C9_setitem_overwrite dfC9 "a" serC9new (by decide)).1,
   (C9_setitem_overwrite dfC9 "a" serC9new (by decide)).2.2 "b" (by decide)⟩

/-- Claim C8, counterexample: on a full buffer of size 3, index `-5` lies
below `-size`, so the claim demands `IndexError`; the code only checks the
upper bound after normalization, so the still-negative normalized index
`-2` reaches the backing storage and wraps again, returning element 1
(value 20). -/
theorem C8_counterexample :
    bufC8cex.getInt (-5) = .ok (Val.num 20) ∧
    bufC8cex.getInt (-5) ≠ .error .indexError := by
  refine ⟨rfl, fun h => ?_⟩
  rw [show bufC8cex.getInt (-5) = .ok (Val.num 20) from rfl] at h
  exact Except.noConfusion h

/-- Claim C8 as amended: integer indexing normalizes a negative index by
adding `size` and checks only the upper bound: `i >= size` fails with
`IndexError`; `-size <= i < 0` wraps from the end of the dense region;
`i < -size` is not caught — the still-negative normalized index reaches
the backing storage, wrapping again from the end of the `capacity`-length
storage, and raises `IndexError` only when even that wrap falls below the
storage. -/
theorem C8_buffer_getitem (b : Buffer) (i : Int) (hwf : b.wfB = true) :
    ((b.size : Int) ≤ i → b.getInt i = .error .indexError) ∧
    (0 ≤ i → i < (b.size : Int) →
      b.getInt i = .ok (b.mem.getD i.toNat (Val.num 0))) ∧
    (-(b.size : Int) ≤ i → i < 0 →
      b.getInt i = .ok (b.mem.getD ((b.size : Int) + i).toNat (Val.num 0))) ∧
    (i < -(b.size : Int) →
      (-(b.capacity : Int) ≤ (b.size : Int) + i →
        b.getInt i =
          .ok (b.mem.getD ((b.capacity : Int) + ((b.size : Int) + i)).toNat (Val.num 0))) ∧
      ((b.size : Int) + i < -(b.capacity : Int) →
        b.getInt i = .error .indexError)) := by
  have hwf' : b.mem.length = b.capacity ∧ b.size ≤ b.capacity := by
    simpa [Buffer.wfB] using hwf
  obtain ⟨hL, hS⟩ := hwf'
  refine ⟨?_, ?_, ?_, ?_⟩
  · intro h
    simp only [Buffer.getInt, pyGet]
    rw [if_neg (show ¬ i < 0 by omega)]
    rw [if_pos h]
  · intro h0 h1
    simp only [Buffer.getInt, pyGet]
    simp only [if_neg (show ¬ i < 0 by omega)]
    rw [if_neg (show ¬ (b.size : Int) ≤ i by omega)]
    rw [if_pos (show 0 ≤ i ∧ i < (b.mem.length : Int) by omega)]
  · intro h0 h1
    simp only [Buffer.getInt, pyGet]
    simp only [if_pos h1]
    rw [if_neg (show ¬ (b.size : Int) ≤ (b.size : Int) + i by omega)]
    rw [if_neg (show ¬ ((b.size : Int) + i < 0) by omega)]
    rw [if_pos (show 0 ≤ (b.size : Int) + i ∧ (b.size : Int) + i < (b.mem.length : Int) by omega)]
  · intro h
    constructor
    · intro h1
      simp only [Buffer.getInt, pyGet]
      simp only [if_pos (show i < 0 by omega)]
      rw [if_neg (show ¬ (b.size : Int) ≤ (b.size : Int) + i by omega)]
      rw [if_pos (show (b.size : Int) + i < 0 by omega)]
      rw [if_pos (show 0 ≤ (b.mem.length : Int) + ((b.size : Int) + i) ∧
            (b.mem.length : Int) + ((b.size : Int) + i) < (b.mem.length : Int) by omega)]
      have : ((b.mem.length : Int) + ((b.size : Int) + i)).toNat =
          ((b.capacity : Int) + ((b.size : Int) + i)).toNat := by omega
      rw [this]
    · intro h1
      simp only [Buffer.getInt, pyGet]
      simp only [if_pos (show i < 0 by omega)]
      rw [if_neg (show ¬ (b.size : Int) ≤ (b.size : Int) + i by omega)]
      rw [if_pos (show (b.size : Int) + i < 0 by omega)]
      rw [if_neg (show ¬ (0 ≤ (b.mem.length : Int) + ((b.size : Int) + i) ∧
            (b.mem.length : Int) + ((b.size : Int) + i) < (b.mem.length : Int)) by omega)]

/-- Witness for the amended C8 at concrete inputs: index 7 overflows a
size-3 buffer and fails; index -1 wraps to element 2. -/
theorem C8_buffer_getitem_witness :
    bufC8w.getInt 7 = .error .indexError ∧
    bufC8w.getInt (-1) = .ok (Val.num 30) := by
  constructor
  · exact (C8_buffer_getitem bufC8w 7 (by decide)).1 (by decide)
  · have h := (C8_buffer_getitem bufC8w (-1) (by decide)).2.2.1 (by decide) (by decide)
    simpa using h

/-- Decomposition of buffer well-formedness. -/
theorem Buffer.wfB_bounds (b : Buffer) (h : b.wfB = true) :
    b.mem.length = b.capacity ∧ b.size ≤ b.capacity := by
  simpa [Buffer.wfB] using h

/-- The dense view of a well-formed buffer has exactly `size` elements. -/
theorem Buffer.length_toGpuArray (b : Buffer) (h : b.wfB = true) :
    b.toGpuArray.length = b.size := by
  obtain ⟨hL, hS⟩ := b.wfB_bounds h
  simp only [Buffer.toGpuArray, List.length_take]
  omega

/-- Decomposition of series well-formedness. -/
theorem Series.wfB_parts (s : Series) (h : s.wfB = true) :
    s.data.wfB = true ∧ s.size = s.data.size ∧
    (s.null_count = 0 ∨ s.mask.isSome = true) ∧
    (∀ m, s.mask = some m → m.wfB = true ∧ m.size = calc_chunk_size s.size 8) := by
  simp only [Series.wfB, Bool.and_eq_true, Bool.or_eq_true, beq_iff_eq] at h
  obtain ⟨⟨⟨hd, hs⟩, hnc⟩, hm⟩ := h
  refine ⟨hd, hs, hnc, ?_⟩
  intro m hm'
  rw [hm'] at hm
  simpa [Bool.and_eq_true, beq_iff_eq] using hm

/-- Two consecutive `extend`s on an empty well-formed buffer succeed when
the combined input fits the capacity, and leave the cast inputs in order
at the front of the storage. -/
theorem Buffer.extend_extend_empty (b : Buffer) (a a2 : List Val)
    (hwf : b.wfB = true) (hz : b.size = 0)
    (hcap : a.length + a2.length ≤ b.capacity) :
    (do let b1 ← b.extend a; b1.extend a2) =
      .ok { b with
            mem := a.map (castVal b.dtype) ++ a2.map (castVal b.dtype) ++
                    b.mem.drop (a.length + a2.length),
            size := a.length + a2.length } := by
  obtain ⟨d, mem, sz, cap⟩ := b
  simp only at hz
  subst hz
  obtain ⟨hL, -⟩ := Buffer.wfB_bounds _ hwf
  simp only at hL hcap ⊢
  rw [Buffer.extend_ok _ a (by simpa using (by omega : a.length ≤ cap - 0))]
  simp only [pyBind_ok]
  rw [Buffer.extend_ok _ a2 (by simpa using (by omega : a2.length ≤ cap - (0 + a.length)))]
  simp only [List.take_zero, List.nil_append, Nat.zero_add]
  have ht : (a.map (castVal d) ++ mem.drop a.length).take a.length = a.map (castVal d) :=
    List.take_left' (by simp)
  have hd2 : (a.map (castVal d) ++ mem.drop a.length).drop (a.length + a2.length) =
      mem.drop (a.length + a2.length) := by
    have he : a.length + a2.length = (a.map (castVal d)).length + a2.length := by simp
    rw [he, List.drop_append, List.drop_drop]
    simp
  rw [ht, hd2]

/-- Claim C3: `extend(a)` fails with the capacity error (`MemoryError`)
exactly when `a` exceeds the available space, and — the check running
before any write — leaves the buffer unchanged (`.error` carries no new
state); within capacity it writes `a` (cast to the buffer dtype) starting
at the old `size` and advances `size` by `a.length`; consequently, on a
fresh (empty) buffer the dense view after `extend(a)` then `extend(a2)`
is `concat(a, a2)`. -/
theorem C3_extend_capacity (b : Buffer) (a a2 : List Val) (hwf : b.wfB = true) :
    (b.capacity - b.size < a.length → b.extend a = .error .memoryError) ∧
    (a.length ≤ b.capacity - b.size →
      (b.extend a).map (fun b1 => (b1.size, b1.toGpuArray)) =
        .ok (b.size + a.length, b.toGpuArray ++ a.map (castVal b.dtype))) ∧
    (b.size = 0 → a.length + a2.length ≤ b.capacity →
      (∀ v ∈ a, Val.hasDtypeB b.dtype v = true) →
      (∀ v ∈ a2, Val.hasDtypeB b.dtype v = true) →
      ((do let b1 ← b.extend a; b1.extend a2) : Except PyErr Buffer).map Buffer.toGpuArray =
        .ok (a ++ a2)) := by
  refine ⟨fun h => Buffer.extend_err b a h, ?_, ?_⟩
  · intro h
    rw [Buffer.extend_ok b a h]
    simp only [pyMap_ok]
    congr 2
    simp only [Buffer.toGpuArray]
    exact Buffer.toGpuArray_extend b a hwf
  · intro hz hcap hda hda2
    rw [Buffer.extend_extend_empty b a a2 hwf hz hcap]
    simp only [pyMap_ok]
    congr 1
    simp only [Buffer.toGpuArray]
    rw [map_castVal_of_hasDtypeB hda, map_castVal_of_hasDtypeB hda2]
    exact List.take_left' (by simp)

/-- Witness for C3 at concrete inputs: on the empty capacity-4 buffer,
extending by 5 values fails with `MemoryError`; extending by `[1,2]` then
`[3]` yields the dense view `[1,2,3]`. -/
theorem C3_extend_capacity_witness :
    bufC3w.extend [Val.num 1, Val.num 2, Val.num 3, Val.num 4, Val.num 5] =
      .error .memoryError ∧
    ((do let b1 ← bufC3w.extend [Val.num 1, Val.num 2]
         b1.extend [Val.num 3]) : Except PyErr Buffer).map Buffer.toGpuArray =
      .ok [Val.num 1, Val.num 2, Val.num 3] := by
  constructor
  · exact (C3_extend_capacity bufC3w
      [Val.num 1, Val.num 2, Val.num 3, Val.num 4, Val.num 5] [] (by decide)).1
      (by decide)
  · exact (C3_extend_capacity bufC3w [Val.num 1, Val.num 2] [Val.num 3]
      (by decide)).2.2 (by decide) (by decide) (by decide) (by decide)

/-- Claim C4: `a.append(b)` returns a new series of length
`len(a) + len(b)` whose data buffer is the element-wise concatenation of
`a`'s data buffer followed by `b`'s, and the result carries no null mask
(`null_count = 0`) regardless of whether `a` or `b` carried a mask. -/
theorem C4_append (s other : Series) (hwf1 : s.wfB = true) (hwf2 : other.wfB = true)
    (h1 : ∀ v ∈ s.data.toGpuArray, Val.hasDtypeB s.data.dtype v = true)
    (h2 : ∀ v ∈ other.data.toGpuArray, Val.hasDtypeB s.data.dtype v = true) :
    (s.append other).map (fun r => (r.size, r.data.toGpuArray, r.mask, r.null_count)) =
      .ok (s.size + other.size, s.data.toGpuArray ++ other.data.toGpuArray,
           none, 0) := by
  obtain ⟨hd1, hs1, -, -⟩ := s.wfB_parts hwf1
  obtain ⟨hd2, hs2, -, -⟩ := other.wfB_parts hwf2
  have hla : s.data.toGpuArray.length = s.data.size := s.data.length_toGpuArray hd1
  have hlb : other.data.toGpuArray.length = other.data.size :=
    other.data.length_toGpuArray hd2
  have hcast1 : s.data.toGpuArray.map (castVal s.data.dtype) = s.data.toGpuArray :=
    map_castVal_of_hasDtypeB h1
  have hcast2 : other.data.toGpuArray.map (castVal s.data.dtype) =
      other.data.toGpuArray := map_castVal_of_hasDtypeB h2
  simp only [Series.append]
  rw [← bind_assoc]
  have hBwf : (Buffer.from_empty s.data.dtype
      (List.replicate (s.size + other.size) (Val.num 0))).wfB = true := by
    simp [Buffer.from_empty, Buffer.wfB]
  have hBcap : s.data.toGpuArray.length + other.data.toGpuArray.length ≤
      (Buffer.from_empty s.data.dtype
        (List.replicate (s.size + other.size) (Val.num 0))).capacity := by
    simp only [Buffer.from_empty, List.length_replicate]
    omega
  rw [Buffer.extend_extend_empty _ s.data.toGpuArray other.data.toGpuArray
      hBwf rfl hBcap]
  simp only [pyBind_ok, pyPure_def, pyMap_ok]
  simp only [Series.from_buffer, Series.init, Buffer.from_empty, Buffer.toGpuArray]
  simp only [Buffer.toGpuArray] at hla hlb hcast1 hcast2
  rw [hcast1, hcast2]
  rw [List.take_left'
    (show ((s.data.mem.take s.data.size) ++ (other.data.mem.take other.data.size)).length =
        (s.data.mem.take s.data.size).length + (other.data.mem.take other.data.size).length
      by simp)]
  congr 2
  omega

/-- Witness for C4 at concrete inputs: appending the dense `[7]` to a
masked `[1,2]` yields length 3, data `[1,2,7]`, no mask and
`null_count = 0`. -/
theorem C4_append_witness :
    (sC4a.append sC4b).map (fun r => (r.size, r.data.toGpuArray, r.mask, r.null_count)) =
      .ok (sC4a.size + sC4b.size, sC4a.data.toGpuArray ++ sC4b.data.toGpuArray,
           none, 0) :=
  C4_append sC4a sC4b (by decide) (by decide) (by decide) (by decide)

/-- Claim C6, counterexample: `sC6cex` carries a null mask (every row
marked valid, `null_count = 0`), yet `scale()` does not fail — the code
gates on `null_count != 0`, not on mask presence — and returns a
successful result. -/
theorem C6_counterexample :
    sC6cex.has_null_mask = true ∧ (Series.scale sC6cex).isOk = true :=
  ⟨rfl, rfl⟩

/-- Claim C6 as amended: `scale()` fails with `NotImplementedError` (the
spec's `NotSupportedError`) exactly when `null_count` is nonzero — a
masked series whose cached `null_count` is 0 is accepted; when
`null_count = 0` it returns the dense values linearly rescaled via
`(v - min) / (max - min)` in float64, with min/max the seeded reductions
over the dense view. -/
theorem C6_scale (s : Series) :
    (s.null_count ≠ 0 → s.scale = .error .notImplementedError) ∧
    (s.null_count = 0 →
      s.scale = .ok (Series.from_array .float64
        (scaleKernel s.denseVals
          (computeMin s.denseVals (typeInfoMax s.dtype))
          (computeMax s.denseVals (typeInfoMin s.dtype))))) := by
  constructor
  · intro h
    simp [Series.scale, h]
  · intro h
    simp [Series.scale, Series.min, Series.max, Series.to_gpu_array_none, h]

/-- Witness for the amended C6: a series with one null fails with
`NotImplementedError`; a dense series is rescaled. -/
theorem C6_scale_witness :
    Series.scale sC6w1 = .error .notImplementedError ∧
    Series.scale sC6w2 = .ok (Series.from_array .float64
      (scaleKernel sC6w2.denseVals
        (computeMin sC6w2.denseVals (typeInfoMax sC6w2.dtype))
        (computeMax sC6w2.denseVals (typeInfoMin sC6w2.dtype)))) :=
  ⟨(C6_scale sC6w1).1 (by decide), (C6_scale sC6w2).2 (by decide)⟩

/-- Claim C5: for a series with nulls and a step-1 slice `[start, stop)`
with `start` a multiple of 8 and `0 <= start <= stop <= len(s)`, reading
any element of the sliced series by integer index gives the same value —
including the `None` null sentinel — as reading element `start + i` of the
unsliced series. -/
theorem C5_slice_index (s : Series) (start stop i : Nat) (hwf : s.wfB = true)
    (hnc : 0 < s.null_count) (h8 : start % 8 = 0) (hss : start ≤ stop)
    (hstop : stop ≤ s.size) (hi : i < stop - start) :
    (do let c ← s.sliceGet (some start) (some stop)
        c.getInt (i : Int)) = s.getInt ((start + i : Nat) : Int) := by
  obtain ⟨hd, hs, hm_or, hmspec⟩ := s.wfB_parts hwf
  have hmsome : s.mask.isSome = true := by
    rcases hm_or with h | h
    · omega
    · exact h
  obtain ⟨m, hm⟩ := Option.isSome_iff_exists.mp hmsome
  obtain ⟨hmwf, hmsize⟩ := hmspec m hm
  obtain ⟨hdL, hdS⟩ := s.data.wfB_bounds hd
  obtain ⟨hmL, hmS⟩ := m.wfB_bounds hmwf
  simp only [calc_chunk_size] at hmsize
  have hstop0 : stop ≠ 0 := by omega
  set L1 := pySlice s.data.mem (some start) (some stop) with hL1
  set L2 := pySlice m.mem (some (calc_chunk_size start 8))
      (some (calc_chunk_size stop 8)) with hL2
  set c : Series := Series.init L1.length s.dtype (Buffer.fromArray s.data.dtype L1)
      (some (Buffer.fromArray m.dtype L2)) none with hc
  have hslice : s.sliceGet (some start) (some stop) = .ok c := by
    rw [hc]
    simp only [Series.sliceGet, hm, if_pos hnc, Option.getD_some]
    rw [if_neg hstop0]
  rw [hslice, pyBind_ok]
  have hlen1 : L1.length = stop - start := by
    rw [hL1]
    simpa [pySlice] using length_pySlice s.data.mem start stop (by omega)
  have hlen2 : L2.length = calc_chunk_size stop 8 - calc_chunk_size start 8 := by
    rw [hL2]
    simpa [pySlice] using
      length_pySlice m.mem (calc_chunk_size start 8) (calc_chunk_size stop 8) (by
        simp only [calc_chunk_size]
        omega)
  simp only [calc_chunk_size] at hlen2
  rw [Series.getInt_nat_masked c (Buffer.fromArray m.dtype L2) i rfl
      (by simpa [hc, Series.init, Buffer.fromArray, hlen1] using (by omega : i < stop - start))
      (by simp [hc, Series.init, Buffer.fromArray])
      (by simpa [Buffer.fromArray, hlen2] using (by omega : i / 8 < (stop + 7) / 8 - (start + 7) / 8))
      (by simp [Buffer.fromArray])]
  rw [Series.getInt_nat_masked s m (start + i) hm
      (by omega) (by omega) (by omega) (by omega)]
  have hbyte : (Buffer.fromArray m.dtype L2).mem.getD (i / 8) (Val.num 0) =
      m.mem.getD ((start + i) / 8) (Val.num 0) := by
    show L2.getD (i / 8) (Val.num 0) = m.mem.getD ((start + i) / 8) (Val.num 0)
    rw [hL2]
    simp only [pySlice, Option.getD_some, calc_chunk_size]
    rw [getD_pySlice m.mem _ _ _ (by omega)]
    congr 1
    omega
  have hval : (Buffer.fromArray s.data.dtype L1).mem.getD i (Val.num 0) =
      s.data.mem.getD (start + i) (Val.num 0) := by
    show L1.getD i (Val.num 0) = s.data.mem.getD (start + i) (Val.num 0)
    rw [hL1]
    simp only [pySlice, Option.getD_some]
    rw [getD_pySlice s.data.mem _ _ _ (by omega)]
  have hbit : i % 8 = (start + i) % 8 := by omega
  rw [hbyte]
  rw [show c.data.mem.getD i (Val.num 0) = s.data.mem.getD (start + i) (Val.num 0)
      from hval]
  rw [hbit]

/-- Witness for C5 at a concrete masked series of nine rows (row 0 null):
slicing `[8, 9)` and reading index 0 agrees with reading index 8 of the
unsliced series. -/
theorem C5_slice_index_witness :
    (do let c ← sC5w.sliceGet (some 8) (some 9)
        c.getInt ((0 : Nat) : Int)) = sC5w.getInt ((8 + 0 : Nat) : Int) :=
  C5_slice_index sC5w 8 9 0 (by decide) (by decide) (by decide) (by decide)
    (by decide) (by decide)

/-- Claim C2: for a frame with at least one (selected) column and at least
one row, all selected columns sharing one dtype and no frame column
carrying a null mask, `as_matrix` returns the column-major matrix whose
j-th column is the dense representation of the j-th selected column (each
of `nrow` elements for a consistent frame); violating any of the
requirements fails with `ValueError`.  (The `dtype = cols[0]` binding
still compares real dtypes: the reflected numpy comparison coerces the
`Series` through its `.dtype` attribute, see `seriesNeDtype`.)  The
dense/length conclusions additionally assume the selected columns are
mask-free, well formed and of the frame's row count — automatic for
columns selected out of a consistent frame. -/
theorem C2_as_matrix (df : DataFrame) (columns? : Option (List String))
    (cols : List Series) (hsel : df.selectCols columns? = .ok cols) :
    (cols = [] → df.as_matrix columns? = .error .valueError) ∧
    (df.size = 0 → df.as_matrix columns? = .error .valueError) ∧
    (∀ c0 rest, cols = c0 :: rest →
      ((∃ c ∈ cols, c.dtype ≠ c0.dtype) →
        df.as_matrix columns? = .error .valueError) ∧
      ((∀ c ∈ cols, c.dtype = c0.dtype) →
        (∃ kc ∈ df.cols, kc.2.has_null_mask = true) →
        df.as_matrix columns? = .error .valueError) ∧
      (0 < df.size → (∀ c ∈ cols, c.dtype = c0.dtype) →
        (∀ kc ∈ df.cols, kc.2.has_null_mask = false) →
        (∀ c ∈ cols, c.mask = none) →
        (∀ c ∈ cols, c.wfB = true ∧ c.size = df.size) →
        df.as_matrix columns? = .ok (cols.map (fun c => c.data.toGpuArray)) ∧
        ∀ l ∈ cols.map (fun c => c.data.toGpuArray), l.length = df.size)) := by
  have hbody : df.as_matrix columns? = df.asMatrixChecked cols := by
    have h0 : df.as_matrix columns? =
        (df.selectCols columns? >>= fun cs => df.asMatrixChecked cs) := rfl
    rw [h0, hsel]
    rfl
  refine ⟨?_, ?_, ?_⟩
  · intro h
    rw [hbody, h]
    rfl
  · intro h
    rw [hbody]
    cases cols with
    | nil => rfl
    | cons c0 rest => simp [DataFrame.asMatrixChecked, h]
  · intro c0 rest hcr
    subst hcr
    refine ⟨?_, ?_, ?_⟩
    · rintro ⟨c, hc, hne⟩
      rw [hbody]
      by_cases hsz : df.size < 1
      · simp [DataFrame.asMatrixChecked, hsz]
      · have hany : (c0 :: rest).any (fun c => seriesNeDtype c0 c.dtype) = true :=
          List.any_eq_true.mpr ⟨c, hc, bne_iff_ne.mpr (fun e => hne e.symm)⟩
        simp [DataFrame.asMatrixChecked, hsz, hany]
    · rintro hdt ⟨kc, hkc, hmask⟩
      rw [hbody]
      by_cases hsz : df.size < 1
      · simp [DataFrame.asMatrixChecked, hsz]
      · have hany : (c0 :: rest).any (fun c => seriesNeDtype c0 c.dtype) = false := by
          simp only [List.any_eq_false]
          intro c hc
          simp [seriesNeDtype, hdt c hc]
        have hmy : df.cols.any (fun kc => kc.2.has_null_mask) = true :=
          List.any_eq_true.mpr ⟨kc, hkc, hmask⟩
        simp [DataFrame.asMatrixChecked, hsz, hany, hmy]
    · intro hsz hdt hmaskall hmasknone hwfall
      have hszlt : ¬ df.size < 1 := by omega
      have hany : (c0 :: rest).any (fun c => seriesNeDtype c0 c.dtype) = false := by
        simp only [List.any_eq_false]
        intro c hc
        simp [seriesNeDtype, hdt c hc]
      have hmaskany : df.cols.any (fun kc => kc.2.has_null_mask) = false := by
        simp only [List.any_eq_false]
        intro kc hkc
        simp [hmaskall kc hkc]
      have hmapM : (c0 :: rest).mapM (fun c => c.to_gpu_array (some "pandas")) =
          .ok ((c0 :: rest).map (fun c => c.data.toGpuArray)) :=
        mapM_ok_of_forall _ _ _
          (fun c hc => Series.to_gpu_array_pandas_dense c (hmasknone c hc))
      constructor
      · rw [hbody]
        simp only [DataFrame.asMatrixChecked]
        rw [if_neg hszlt, hany, hmaskany]
        simp only [Bool.false_eq_true, if_false]
        exact hmapM
      · intro l hl
        obtain ⟨c, hc, rfl⟩ := List.mem_map.mp hl
        obtain ⟨hw, hsize⟩ := hwfall c hc
        obtain ⟨hdw, hss, -, -⟩ := c.wfB_parts hw
        rw [c.data.length_toGpuArray hdw]
        omega

/-- Witness for C2 at concrete frames: the single dense int64 column
`[1,2]` yields the 2-by-1 matrix `[[1,2]]`; a frame whose column carries
a null mask fails with `ValueError`. -/
theorem C2_as_matrix_witness :
    dfC2.as_matrix none = .ok [[Val.num 1, Val.num 2]] ∧
    dfC2mask.as_matrix none = .error .valueError := by
  constructor
  · have h := ((C2_as_matrix dfC2 none
        [Series.from_array .int64 [Val.num 1, Val.num 2]] rfl).2.2
        (Series.from_array .int64 [Val.num 1, Val.num 2]) [] rfl).2.2
        (by decide) (by decide) (by decide) (by decide) (by decide)
    exact h.1
  · exact ((C2_as_matrix dfC2mask none [sC4a] rfl).2.2 sC4a [] rfl).2.1
      (by decide) (by decide)
